import Mathlib

/-!
Shallow embedding of the data-quality core of the immunization-audit
dashboard (`app.js`).  Record fields that the scoring and classification
code reads are modelled as `Option String`: `none` stands for a JavaScript
`undefined`/`null` value, `some s` for the string `s`.  JavaScript
truthiness on such a value (`!val`) is the predicate `falsy` below;
the helper `isEmpty` of the source additionally trims whitespace.
-/

namespace AuditUI

/-- An immunization record, with every field the core reads modelled as an
optional string (numeric fields are carried as their printed form, which is
all the audited code ever looks at). -/
structure Record where
  doc_id : Option String := some "d"
  patient_id : Option String := some "p"
  vaccine_name : Option String := some "V"
  quantity : Option String := some "1"
  units : Option String := some "mL"
  ndc : Option String := some "00000-0000-00"
  lot_number : Option String := some "L1"
  expiration_date : Option String := some "2025-12-31"
  administered_date : Option String := some "2024-01-01"
  status : Option String := some "completed"
  vfc_status : Option String := some "V02"
  funding_source : Option String := some "PBF"
  race : Option String := some "R"
  ethnicity : Option String := some "E"
  mobile : Option String := some "555-0100"
  email : Option String := some "a@b.c"
deriving DecidableEq, Repr

/-- JavaScript truthiness test `!val` on an optional string:
`undefined`, `null` and the empty string are falsy, every other string
(whitespace-only ones included) is truthy. -/
def falsy : Option String → Bool
  | none => true
  | some s => s = ""

/-- Whitespace trimming on the character list of a string (the semantics
of `String.trim` and of JavaScript `trim()` on the ASCII data at hand). -/
def trimChars (s : String) : String :=
  String.mk
    (((s.data.dropWhile Char.isWhitespace).reverse.dropWhile Char.isWhitespace).reverse)

/-- Upper-casing on the character list of a string (the semantics of
`toUpperCase()` on the ASCII data at hand). -/
def upperChars (s : String) : String :=
  String.mk (s.data.map Char.toUpper)

/-- `isEmpty` from `app.js`: `val === undefined || val === null ||
String(val).trim() === ""`. -/
def isEmpty : Option String → Bool
  | none => true
  | some s => trimChars s = ""

/-- `getSeverity` from `app.js` (the classifier used for the severity strip
and tier counts): high when VFC status or funding source is falsy, then
medium on demographics, then low on contact, else clean. -/
def getSeverity (record : Record) : String :=
  if falsy record.vfc_status || falsy record.funding_source then "high"
  else if falsy record.race || falsy record.ethnicity then "medium"
  else if falsy record.mobile || falsy record.email then "low"
  else "clean"

/-- `getRecordSeverity` from `app.js` (the "authoritative" variant): HIGH
only when BOTH VFC status and funding source are falsy. -/
def getRecordSeverity (rec : Record) : String :=
  if falsy rec.vfc_status && falsy rec.funding_source then "HIGH"
  else if falsy rec.race || falsy rec.ethnicity then "MEDIUM"
  else if falsy rec.mobile || falsy rec.email then "LOW"
  else "CLEAN"

/-- `riskClassFromRecord` from `app.js` (row highlighting): high when a
required vaccine/order field is `isEmpty`, medium on VFC/funding or
race/ethnicity, low on contact, otherwise the empty class string. -/
def riskClassFromRecord (r : Record) : String :=
  if isEmpty r.vaccine_name || isEmpty r.quantity || isEmpty r.units ||
      isEmpty r.ndc || isEmpty r.lot_number || isEmpty r.expiration_date then "high"
  else if isEmpty r.vfc_status || isEmpty r.funding_source ||
      isEmpty r.race || isEmpty r.ethnicity then "medium"
  else if isEmpty r.mobile || isEmpty r.email then "low"
  else ""

/-- Field lookup by name, the embedding of the dynamic access `r[w.field]`
used by `computeReadiness`. -/
def fieldGet (r : Record) : String → Option String
  | "lot_number" => r.lot_number
  | "ndc" => r.ndc
  | "expiration_date" => r.expiration_date
  | "vfc_status" => r.vfc_status
  | "funding_source" => r.funding_source
  | "mobile" => r.mobile
  | "email" => r.email
  | _ => none

/-- `READINESS_WEIGHTS` from `app.js`. -/
def READINESS_WEIGHTS : List (String × Int) :=
  [("lot_number", 25), ("ndc", 25), ("expiration_date", 10),
   ("vfc_status", 15), ("funding_source", 15), ("mobile", 5), ("email", 5)]

/-- Lexicographic `<` on the character lists of two strings, the
comparison JavaScript's `<` performs on the ASCII date and lot strings at
hand. -/
def ltChars : List Char → List Char → Bool
  | [], [] => false
  | [], _ :: _ => true
  | _ :: _, [] => false
  | a :: as, b :: bs => if a < b then true else if b < a then false else ltChars as bs

/-- String `<` as used by the source on ISO dates. -/
def strLt (a b : String) : Bool := ltChars a.data b.data

/-- The date sanity check of `computeReadiness`: both dates truthy and the
expiration date a smaller string than the administration date. -/
def dateConflict (r : Record) : Bool :=
  !falsy r.administered_date && !falsy r.expiration_date &&
    strLt (r.expiration_date.getD "") (r.administered_date.getD "")

/-- `computeReadiness` from `app.js`: start from 100, subtract each weight
whose field is falsy, subtract a clamped 15-point penalty on a date
conflict, then clamp to [0, 100]. -/
def computeReadiness (r : Record) : Int :=
  let score : Int :=
    READINESS_WEIGHTS.foldl
      (fun score w => if falsy (fieldGet r w.1) then score - w.2 else score) 100
  let score : Int :=
    if dateConflict r then max 0 (score - 15) else score
  max 0 (min 100 score)

/-- The `missing` helper local to `computeDataQualityScore`:
`!r[key] || !String(r[key]).trim()`. -/
def dqMissing (v : Option String) : Bool :=
  falsy v || (trimChars (v.getD "") = "")

/-- `computeDataQualityScore` from `app.js`: 0 on an empty set, otherwise
100 minus the weighted missing-share penalty, rounded and clamped.
Arithmetic is embedded over `ℚ` (the integer counts and weights involved
are exact in the source's floating point as well). -/
def computeDataQualityScore (records : List Record) : Int :=
  let n := records.length
  if n = 0 then 0
  else
    let penalty : ℚ :=
      (28 * (records.filter (fun r => dqMissing r.vfc_status)).length : ℚ) / n +
      (24 * (records.filter (fun r => dqMissing r.funding_source)).length : ℚ) / n +
      (14 * (records.filter (fun r => dqMissing r.race)).length : ℚ) / n +
      (14 * (records.filter (fun r => dqMissing r.ethnicity)).length : ℚ) / n +
      (20 * (records.filter
        (fun r => dqMissing r.email || dqMissing r.mobile)).length : ℚ) / n
    let score : Int := round ((100 : ℚ) - penalty)
    max 0 (min 100 score)

/-- The text `updateDQScoreBadge` writes into the badge value element:
`"--"` when the record set is empty (the scorer is not consulted),
otherwise the rendered score. -/
def dqBadgeText (records : List Record) : String :=
  if records.length = 0 then "--" else toString (computeDataQualityScore records)

/-! ## Review ledger (`localStorage`-backed) -/

/-- The browser-local key-value store, as a total map from keys to an
optional stored string. -/
def Store : Type := String → Option String

/-- `localStorage.setItem`. -/
def lsSet (s : Store) (k v : String) : Store :=
  fun k' => if k' = k then some v else s k'

/-- `localStorage.removeItem`. -/
def lsRemove (s : Store) (k : String) : Store :=
  fun k' => if k' = k then none else s k'

/-- `reviewedKey` from `app.js`. -/
def reviewedKey (docId : String) : String := "resolved:" ++ docId

/-- `reviewedTsKey` from `app.js`. -/
def reviewedTsKey (docId : String) : String := "resolved:" ++ docId ++ ":ts"

/-- `isReviewed` from `app.js`: the stored flag equals `"1"`. -/
def isReviewed (s : Store) (docId : String) : Bool :=
  s (reviewedKey docId) == some "1"

/-- `setReviewed` from `app.js`; `now` is the ISO timestamp
`new Date().toISOString()` of the call. -/
def setReviewed (s : Store) (docId : String) (val : Bool) (now : String) : Store :=
  let s1 := lsSet s (reviewedKey docId) (if val then "1" else "0")
  if val then lsSet s1 (reviewedTsKey docId) now
  else lsRemove s1 (reviewedTsKey docId)

/-- `getReviewedTimestamp` from `app.js`. -/
def getReviewedTimestamp (s : Store) (docId : String) : Option String :=
  s (reviewedTsKey docId)

/-! ## Lot usage aggregation (`buildVaccineLotTableRows`) -/

/-- `normLot` from `app.js`: upper-case, trim, drop all whitespace, keep
only the characters `A`-`Z` and `0`-`9`. -/
def normLot (s : String) : String :=
  String.mk (((trimChars (upperChars s)).data.filter (fun c => !c.isWhitespace)).filter
    (fun c => ('A' ≤ c && c ≤ 'Z') || ('0' ≤ c && c ≤ '9')))

/-- The `soften` helper of `isNearTypo`: replace every `'0'` by `'O'`. -/
def soften (x : String) : String :=
  String.mk (x.data.map (fun c => if c = '0' then 'O' else c))

/-- Positionwise mismatch count of the equal-length branch of `isNearTypo`
(the source's `O`/`C` sub-branch adds 1 to the counter exactly like the
general branch, so the loop counts every unequal position). -/
def mismatches : List Char → List Char → Nat
  | a :: as, b :: bs => (if a = b then 0 else 1) + mismatches as bs
  | _, _ => 0

/-- The two-pointer loop of `isNearTypo`'s length-difference-one branch:
`longer` is the longer normalized lot, and on a mismatch only the longer
side advances; more than one mismatch rejects, exhausting either side
accepts. -/
def skipLoop : List Char → List Char → Nat → Bool
  | _, [], _ => true
  | [], _, _ => true
  | a :: as, b :: bs, edits =>
    if a = b then skipLoop as bs edits
    else if edits + 1 > 1 then false
    else skipLoop as (b :: bs) (edits + 1)

/-- `isNearTypo` from `app.js`. -/
def isNearTypo (aRaw bRaw : String) : Bool :=
  let a := normLot aRaw
  let b := normLot bRaw
  if a = "" || b = "" then false
  else if a = b then false
  else if soften a = soften b then true
  else if a.length = b.length then mismatches a.data b.data = 1
  else if a.length = b.length + 1 || b.length = a.length + 1 then
    if a.length > b.length then skipLoop a.data b.data 0
    else skipLoop b.data a.data 0
  else false

/-- One `(vaccine, lot)` group of the aggregation map: count and
first/last administration dates. -/
structure LotGroup where
  vaccine : String
  lot : String
  count : Nat
  first : String
  last : String
deriving DecidableEq, Repr

/-- Increment a string-keyed counter object, inserting a new key at the
end (JavaScript object insertion order). -/
def bumpAssoc : List (String × Nat) → String → List (String × Nat)
  | [], k => [(k, 1)]
  | (a, c) :: t, k =>
    if a = k then (a, c + 1) :: t else (a, c) :: bumpAssoc t k

/-- Read a string-keyed counter object, 0 when the key is absent. -/
def totalCount : List (String × Nat) → String → Nat
  | [], _ => 0
  | (a, c) :: t, v => if a = v then c else totalCount t v

/-- Update the nested `vaccineLotCounts` object at a vaccine key. -/
def bumpLotCounts : List (String × List (String × Nat)) → String → String →
    List (String × List (String × Nat))
  | [], v, l => [(v, bumpAssoc [] l)]
  | (a, m) :: t, v, l =>
    if a = v then (a, bumpAssoc m l) :: t else (a, m) :: bumpLotCounts t v l

/-- Read the nested `vaccineLotCounts` object at a vaccine key, the empty
object when the key is absent. -/
def lotsFor : List (String × List (String × Nat)) → String → List (String × Nat)
  | [], _ => []
  | (a, m) :: t, v => if a = v then m else lotsFor t v

/-- Update the `map` object of `buildVaccineLotTableRows` for one valid
record: bump the matching group's count and extend its date span, or append
a fresh group. -/
def updGroups : List LotGroup → String → String → String → List LotGroup
  | [], v, l, d => [⟨v, l, 1, d, d⟩]
  | g :: t, v, l, d =>
    if g.vaccine = v && g.lot = l then
      { g with
        count := g.count + 1,
        first := if strLt g.first d then g.first else d,
        last := if strLt d g.last then g.last else d } :: t
    else g :: updGroups t v l d

/-- The accumulator of the `records.forEach` pass of
`buildVaccineLotTableRows`: the group map, the per-vaccine totals and the
per-vaccine lot counts. -/
structure LotState where
  groups : List LotGroup
  totals : List (String × Nat)
  lotCounts : List (String × List (String × Nat))
deriving Repr

/-- One iteration of the `records.forEach` pass: records with a falsy
vaccine name, lot number or administered date are skipped. -/
def lotStep (st : LotState) (r : Record) : LotState :=
  if falsy r.vaccine_name || falsy r.lot_number || falsy r.administered_date then st
  else
    let vaccine := trimChars (r.vaccine_name.getD "")
    let lot := trimChars (r.lot_number.getD "")
    let date := r.administered_date.getD ""
    { groups := updGroups st.groups vaccine lot date,
      totals := bumpAssoc st.totals vaccine,
      lotCounts := bumpLotCounts st.lotCounts vaccine lot }

/-- The full aggregation pass of `buildVaccineLotTableRows`. -/
def lotAgg (records : List Record) : LotState :=
  records.foldl lotStep ⟨[], [], []⟩

/-- The dominant-lot loop: scan the lots of one vaccine keeping the first
entry whose count strictly exceeds the best so far (initial best `-1`). -/
def domFold : List (String × Nat) → String × Int → String × Int
  | [], best => best
  | (l, c) :: t, (bl, bc) =>
    if (c : Int) > bc then domFold t (l, (c : Int)) else domFold t (bl, bc)

/-- `dominantLotByVaccine` for one vaccine (a vaccine absent from the
counts object has no entry; `?.lot || ""` and `?.count || 0` render that
as `("", 0)`). -/
def dominantFor (st : LotState) (vaccine : String) : String × Int :=
  match lotsFor st.lotCounts vaccine with
  | [] => ("", 0)
  | lots => domFold lots ("", -1)

/-- Insert one group into a list already sorted by descending count
(stable, new element goes after equal counts), the semantics of the
source's `sort((a, b) => b.count - a.count)`. -/
def insDesc (g : LotGroup) : List LotGroup → List LotGroup
  | [] => [g]
  | h :: t => if g.count > h.count then g :: h :: t else h :: insDesc g t

/-- Stable sort by descending count. -/
def sortDesc (l : List LotGroup) : List LotGroup :=
  l.foldr insDesc []

/-- The anomaly flag attached to a rendered lot row. -/
inductive LotFlag where
  | typo
  | oneOff
  | rare
deriving DecidableEq, Repr

/-- A rendered row of the lot table, with its data content (the HTML
wrapper is presentation only). -/
structure LotRow where
  vaccine : String
  lot : String
  count : Nat
  first : String
  last : String
  flag : Option LotFlag
deriving DecidableEq, Repr

/-- The vaccine total a rendered row divides by
(`vaccineTotals[row.vaccine] || 1`). -/
def totalFor (st : LotState) (vaccine : String) : Nat :=
  if totalCount st.totals vaccine = 0 then 1 else totalCount st.totals vaccine

/-- The per-row rendering step of `buildVaccineLotTableRows`: compute the
vaccine total (`|| 1`), the dominant lot and its count, and the
typo/one-off/rare flag chain.  The share test `count / total < 0.02` is
embedded exactly as `50 * count < total`. -/
def lotRow (st : LotState) (g : LotGroup) : LotRow :=
  let vaccineTotal := totalFor st g.vaccine
  let dom := dominantFor st g.vaccine
  let isOneOff := g.count = 1
  let isRare := g.count ≤ 3 || 50 * g.count < vaccineTotal
  let looksLikeTypo :=
    g.lot ≠ dom.1 && dom.2 ≥ 10 && isNearTypo g.lot dom.1
  let flag : Option LotFlag :=
    if looksLikeTypo then some .typo
    else if isOneOff then some .oneOff
    else if isRare then some .rare
    else none
  ⟨g.vaccine, g.lot, g.count, g.first, g.last, flag⟩

/-- `buildVaccineLotTableRows` from `app.js`, as the list of row data it
renders: aggregate, sort descending by count, attach flags. -/
def buildVaccineLotTableRows (records : List Record) : List LotRow :=
  let st := lotAgg records
  (sortDesc st.groups).map (lotRow st)

/-! ## Missing-field date bucketing (`renderStackedBarEChart`) -/

/-- The per-date counter object of the stacked-bar aggregation. -/
structure DayCounts where
  vfc : Nat
  funding : Nat
  race : Nat
  ethnicity : Nat
  contact : Nat
deriving DecidableEq, Repr

/-- Apply one record's missing-field tests to a date bucket: one increment
per category, and the contact counter once when email OR mobile is falsy. -/
def bumpCounts (c : DayCounts) (r : Record) : DayCounts :=
  { vfc := c.vfc + (if falsy r.vfc_status then 1 else 0),
    funding := c.funding + (if falsy r.funding_source then 1 else 0),
    race := c.race + (if falsy r.race then 1 else 0),
    ethnicity := c.ethnicity + (if falsy r.ethnicity then 1 else 0),
    contact := c.contact + (if falsy r.email || falsy r.mobile then 1 else 0) }

/-- The bucket key of a record: `administered_date?.split("T")[0]`, with a
falsy result meaning the record is skipped. -/
def dateKey (r : Record) : Option String :=
  match r.administered_date with
  | none => none
  | some s =>
    let d := String.mk (s.data.takeWhile (fun c => c ≠ 'T'))
    if d = "" then none else some d

/-- Update the `byDate` object at one date key (insertion order, new dates
appended). -/
def updateBucket : List (String × DayCounts) → String → Record →
    List (String × DayCounts)
  | [], d, r => [(d, bumpCounts ⟨0, 0, 0, 0, 0⟩ r)]
  | (k, c) :: t, d, r =>
    if k = d then (k, bumpCounts c r) :: t else (k, c) :: updateBucket t d r

/-- One iteration of the `records.forEach` pass of the stacked-bar chart:
records without a usable date key contribute nothing. -/
def bucketStep (m : List (String × DayCounts)) (r : Record) :
    List (String × DayCounts) :=
  match dateKey r with
  | none => m
  | some d => updateBucket m d r

/-- The date-bucketed missing-field aggregation of
`renderStackedBarEChart`. -/
def bucketMissingByDate (records : List Record) : List (String × DayCounts) :=
  records.foldl bucketStep []

/-! ## Specification-side definitions

These definitions follow the wording of the specification (`spec.md`) and
of the claims, to be compared with the embedded source functions above. -/

/-- Lower-casing on the character list of a string, used to compare tier
spellings across call sites. -/
def lowerChars (s : String) : String :=
  String.mk (s.data.map Char.toLower)

/-- The spec's severity policy as a precedence-ordered rule list,
first match wins. -/
def severityRules : List ((Record → Bool) × String) :=
  [(fun r => falsy r.vfc_status || falsy r.funding_source, "high"),
   (fun r => falsy r.race || falsy r.ethnicity, "medium"),
   (fun r => falsy r.mobile || falsy r.email, "low")]

/-- `classifySeverity` as worded by the spec: evaluate the rules in order,
return the first matching tier, `"clean"` when none matches. -/
def classifySeveritySpec (r : Record) : String :=
  (((severityRules.find? (fun rule => rule.1 r)).map Prod.snd).getD "clean")

/-- Tier counts over a record set (clean, high, medium, low), the counting
done by `updateSeverityStrip`/`buildOverviewInsight` with `getSeverity`. -/
def tierCounts (rs : List Record) : Nat × Nat × Nat × Nat :=
  (rs.countP (fun r => getSeverity r = "clean"),
   rs.countP (fun r => getSeverity r = "high"),
   rs.countP (fun r => getSeverity r = "medium"),
   rs.countP (fun r => getSeverity r = "low"))

/-- The readiness formula as worded by the claim: 100 minus the weights of
the missing fields, minus a flat 15 on a date conflict, clamped
to [0, 100]. -/
def readinessSpec (r : Record) : Int :=
  let deficit : Int :=
    (if falsy r.lot_number then 25 else 0) + (if falsy r.ndc then 25 else 0) +
    (if falsy r.expiration_date then 10 else 0) +
    (if falsy r.vfc_status then 15 else 0) +
    (if falsy r.funding_source then 15 else 0) +
    (if falsy r.mobile then 5 else 0) + (if falsy r.email then 5 else 0)
  let pen : Int := if dateConflict r then 15 else 0
  max 0 (min 100 (100 - deficit - pen))

/-- A value on which JavaScript truthiness and `isEmpty` disagree: a
non-empty, whitespace-only string. -/
def wsMismatch (v : Option String) : Bool :=
  isEmpty v && !falsy v

/-- The severity classifier as the spec's single-missingness-predicate
claim would have it: the same precedence chain, with `isEmpty` as the
missingness test. -/
def getSeverityE (record : Record) : String :=
  if isEmpty record.vfc_status || isEmpty record.funding_source then "high"
  else if isEmpty record.race || isEmpty record.ethnicity then "medium"
  else if isEmpty record.mobile || isEmpty record.email then "low"
  else "clean"

/-- The date sanity check as the single-missingness-predicate claim would
have it, with `isEmpty` as the presence test. -/
def dateConflictE (r : Record) : Bool :=
  !isEmpty r.administered_date && !isEmpty r.expiration_date &&
    strLt (r.expiration_date.getD "") (r.administered_date.getD "")

/-- The readiness scorer as the spec's single-missingness-predicate claim
would have it: the same computation, with `isEmpty` as the missingness
test throughout. -/
def computeReadinessE (r : Record) : Int :=
  let score : Int :=
    READINESS_WEIGHTS.foldl
      (fun score w => if isEmpty (fieldGet r w.1) then score - w.2 else score) 100
  let score : Int :=
    if dateConflictE r then max 0 (score - 15) else score
  max 0 (min 100 score)

/-- Single-deletion alignment: some one-character deletion of `longer`
yields `shorter`. -/
def oneDel (longer shorter : List Char) : Bool :=
  (List.range longer.length).any (fun i => longer.eraseIdx i = shorter)

/-- The near-typo check as worded by the claim: normalize, treat `'0'` and
`'O'` as equivalent throughout, then accept on equal length with exactly
one mismatched character, or on a length difference of one bridged by a
single insertion/deletion. -/
def nearTypoClaim (aRaw bRaw : String) : Bool :=
  let a := soften (normLot aRaw)
  let b := soften (normLot bRaw)
  (a.length == b.length && mismatches a.data b.data == 1) ||
  (a.length == b.length + 1 && oneDel a.data b.data) ||
  (b.length == a.length + 1 && oneDel b.data a.data)

/-- An ISO `YYYY-MM-DD` date shape, the claim's notion of a parseable
administration date (digits and dashes in the right places). -/
def isoDateShape (s : String) : Bool :=
  match s.data with
  | [y1, y2, y3, y4, c1, m1, m2, c2, d1, d2] =>
    y1.isDigit && y2.isDigit && y3.isDigit && y4.isDigit &&
    c1 = '-' && m1.isDigit && m2.isDigit && c2 = '-' && d1.isDigit && d2.isDigit
  | _ => false

/-- The claim's parseability of an administered date: its date portion
(before any `'T'`) has the ISO date shape. -/
def parseableDate (s : String) : Bool :=
  isoDateShape (String.mk (s.data.takeWhile (fun c => c ≠ 'T')))

/-- The claimed anomaly flag of a lot-table entry, given the vaccine total,
the dominant lot with its count, and the entry's own count and lot:
precedence typo > oneOff > rare, with the three conditions as worded in
the claim (`50 * count < total` is `share < 2%`). -/
def flagSpec (total : Nat) (dom : String × Int) (count : Nat) (lot : String) :
    Option LotFlag :=
  if lot ≠ dom.1 ∧ dom.2 ≥ 10 ∧ isNearTypo lot dom.1 = true then some .typo
  else if count = 1 then some .oneOff
  else if count ≤ 3 ∨ 50 * count < total then some .rare
  else none

/-- The count stored in the group map for a `(vaccine, lot)` key. -/
def groupCount : List LotGroup → String → String → Nat
  | [], _, _ => 0
  | g :: t, v, l => if g.vaccine = v && g.lot = l then g.count else groupCount t v l

/-- Whether the lot aggregation pass keeps a record. -/
def lotKept (r : Record) : Bool :=
  !(falsy r.vaccine_name || falsy r.lot_number || falsy r.administered_date)

/-- The records the lot aggregation counts into the `(v, l)` group: kept,
with trimmed vaccine name `v` and trimmed lot number `l`. -/
def keptWith (v l : String) (r : Record) : Bool :=
  lotKept r && (trimChars (r.vaccine_name.getD "") = v) &&
    (trimChars (r.lot_number.getD "") = l)

/-- The records the lot aggregation counts into vaccine `v`'s total. -/
def keptVac (v : String) (r : Record) : Bool :=
  lotKept r && (trimChars (r.vaccine_name.getD "") = v)

/-- Componentwise sum of two date-bucket counter objects. -/
def addCounts (c d : DayCounts) : DayCounts :=
  ⟨c.vfc + d.vfc, c.funding + d.funding, c.race + d.race,
   c.ethnicity + d.ethnicity, c.contact + d.contact⟩

/-- The zero counter object. -/
def zeroCounts : DayCounts := ⟨0, 0, 0, 0, 0⟩

/-- The counters stored in a `byDate` object for one date key, zero when
the bucket does not exist. -/
def bucketCounts : List (String × DayCounts) → String → DayCounts
  | [], _ => zeroCounts
  | (k, c) :: t, d => if k = d then c else bucketCounts t d

/-! ## Concrete records used by the scenarios and counterexamples -/

/-- Scenario record 1: all fields present, dated `2024-01-01`. -/
def recAllFields : Record := {}

/-- Scenario record 2: missing `vfc_status`, dated `2024-01-02`. -/
def recNoVfc : Record :=
  { vfc_status := none, administered_date := some "2024-01-02" }

/-- Scenario record 3: missing `race` and `mobile`, dated `2024-01-03`. -/
def recNoRaceMobile : Record :=
  { race := none, mobile := none, administered_date := some "2024-01-03" }

/-- A record with every modelled field absent. -/
def allMissingRec : Record :=
  { doc_id := none, patient_id := none, vaccine_name := none, quantity := none,
    units := none, ndc := none, lot_number := none, expiration_date := none,
    administered_date := none, status := none, vfc_status := none,
    funding_source := none, race := none, ethnicity := none, mobile := none,
    email := none }

/-- A record missing only `ndc`. -/
def recNoNdc : Record := { ndc := none }

/-- A record with all fields present but a date conflict: the expiration
date precedes the administration date. -/
def recConflict : Record :=
  { expiration_date := some "2024-01-01", administered_date := some "2024-06-01" }

/-- A record whose `vfc_status` is a whitespace-only string. -/
def recWsVfc : Record := { vfc_status := some " " }

/-- A record whose `lot_number` is a whitespace-only string. -/
def recWsLot : Record := { lot_number := some " " }

/-- A record administering lot `ABC123`. -/
def recLotA : Record := { lot_number := some "ABC123" }

/-- A record administering lot `ABD123`. -/
def recLotB : Record := { lot_number := some "ABD123" }

/-- A record administering lot `XYZ`. -/
def recLotX : Record := { lot_number := some "XYZ" }

/-- A record dated with a time component, missing `email`. -/
def recDateTime : Record :=
  { administered_date := some "2024-01-05T10:00:00Z", email := none }

/-- A record dated with a bare date, missing `race`. -/
def recDateOnly : Record :=
  { administered_date := some "2024-01-05", race := none }

/-- A record whose administered date is a non-date string, missing
`email`. -/
def recBadDate : Record :=
  { administered_date := some "notadate", email := none }

/-! ## Helper lemmas -/

/-- A falsy optional string is also `isEmpty`. -/
lemma isEmpty_of_falsy {v : Option String} (h : falsy v = true) :
    isEmpty v = true := by
  cases v with
  | none => rfl
  | some s =>
    simp only [falsy, decide_eq_true_eq] at h
    subst h
    decide

/-- Where truthiness and `isEmpty` are not in whitespace conflict, they
agree. -/
lemma isEmpty_eq_falsy_of_not_ws {v : Option String} (h : wsMismatch v = false) :
    isEmpty v = falsy v := by
  cases hf : falsy v with
  | true => simp [isEmpty_of_falsy hf]
  | false => simpa [wsMismatch, hf] using h

/-- A rendered nonnegative score of at most 100 is never the badge
sentinel. -/
lemma repr_score_ne_sentinel (z : Int) (h0 : 0 ≤ z) (h1 : z ≤ 100) :
    toString z ≠ "--" := by
  obtain ⟨n, rfl⟩ := Int.eq_ofNat_of_zero_le h0
  have hn : n ≤ 100 := by exact_mod_cast h1
  have all : ∀ m : Fin 101, toString (Int.ofNat m.val) ≠ "--" := by decide
  exact all ⟨n, by omega⟩

lemma fieldGet_lot_number (r : Record) : fieldGet r "lot_number" = r.lot_number := rfl

lemma fieldGet_ndc (r : Record) : fieldGet r "ndc" = r.ndc := rfl

lemma fieldGet_expiration_date (r : Record) :
    fieldGet r "expiration_date" = r.expiration_date := rfl

lemma fieldGet_vfc_status (r : Record) : fieldGet r "vfc_status" = r.vfc_status := rfl

lemma fieldGet_funding_source (r : Record) :
    fieldGet r "funding_source" = r.funding_source := rfl

lemma fieldGet_mobile (r : Record) : fieldGet r "mobile" = r.mobile := rfl

lemma fieldGet_email (r : Record) : fieldGet r "email" = r.email := rfl

/-- The weighted-subtraction fold of `computeReadiness` equals 100 minus
the sum of the weights of the falsy fields. -/
lemma readiness_fold (r : Record) :
    READINESS_WEIGHTS.foldl
      (fun score w => if falsy (fieldGet r w.1) then score - w.2 else score)
      100 =
    100 - ((if falsy r.lot_number then 25 else 0) +
      (if falsy r.ndc then 25 else 0) +
      (if falsy r.expiration_date then 10 else 0) +
      (if falsy r.vfc_status then 15 else 0) +
      (if falsy r.funding_source then 15 else 0) +
      (if falsy r.mobile then 5 else 0) + (if falsy r.email then 5 else 0)) := by
  simp only [READINESS_WEIGHTS, List.foldl_cons, List.foldl_nil,
    fieldGet_lot_number, fieldGet_ndc, fieldGet_expiration_date,
    fieldGet_vfc_status, fieldGet_funding_source, fieldGet_mobile,
    fieldGet_email]
  cases falsy r.lot_number <;> cases falsy r.ndc <;>
    cases falsy r.expiration_date <;> cases falsy r.vfc_status <;>
      cases falsy r.funding_source <;> cases falsy r.mobile <;>
        cases falsy r.email <;> norm_num

/-- The analogous fold identity for the `isEmpty`-based variant. -/
lemma readinessE_fold (r : Record) :
    READINESS_WEIGHTS.foldl
      (fun score w => if isEmpty (fieldGet r w.1) then score - w.2 else score)
      100 =
    100 - ((if isEmpty r.lot_number then 25 else 0) +
      (if isEmpty r.ndc then 25 else 0) +
      (if isEmpty r.expiration_date then 10 else 0) +
      (if isEmpty r.vfc_status then 15 else 0) +
      (if isEmpty r.funding_source then 15 else 0) +
      (if isEmpty r.mobile then 5 else 0) +
      (if isEmpty r.email then 5 else 0)) := by
  simp only [READINESS_WEIGHTS, List.foldl_cons, List.foldl_nil,
    fieldGet_lot_number, fieldGet_ndc, fieldGet_expiration_date,
    fieldGet_vfc_status, fieldGet_funding_source, fieldGet_mobile,
    fieldGet_email]
  cases isEmpty r.lot_number <;> cases isEmpty r.ndc <;>
    cases isEmpty r.expiration_date <;> cases isEmpty r.vfc_status <;>
      cases isEmpty r.funding_source <;> cases isEmpty r.mobile <;>
        cases isEmpty r.email <;> norm_num

/-! ## Claim theorems -/

/-- C1: `getSeverity` implements the four-tier first-match precedence
(high on VFC/funding, then medium on race/ethnicity, then low on contact,
else clean); a record missing only race and mobile is `medium`, and the
three-record scenario counts are clean 1, high 1, medium 1, low 0. -/
theorem getSeverity_precedence_and_scenario :
    (∀ r : Record, getSeverity r = classifySeveritySpec r) ∧
    (∀ r : Record, getSeverity r = "high" ∨ getSeverity r = "medium" ∨
      getSeverity r = "low" ∨ getSeverity r = "clean") ∧
    getSeverity recNoRaceMobile = "medium" ∧
    tierCounts [recAllFields, recNoVfc, recNoRaceMobile] = (1, 1, 1, 0) := by
  refine ⟨?_, ?_, by decide, by decide⟩
  · intro r
    unfold getSeverity classifySeveritySpec severityRules
    cases h1 : falsy r.vfc_status || falsy r.funding_source <;>
      cases h2 : falsy r.race || falsy r.ethnicity <;>
        cases h3 : falsy r.mobile || falsy r.email <;>
          simp [List.find?, h1, h2, h3]
  · intro r
    unfold getSeverity
    split_ifs <;> simp

/-- C2 counterexample: on the empty set `computeDataQualityScore` returns
the plain number 0, which is also the score of a non-empty all-missing
set. -/
theorem dq_empty_zero_counterexample :
    computeDataQualityScore [] = 0 ∧
    computeDataQualityScore [allMissingRec] = 0 ∧
    ([allMissingRec] : List Record) ≠ [] := by
  refine ⟨rfl, ?_, by simp⟩
  norm_num [computeDataQualityScore, dqMissing, falsy, allMissingRec, round_eq,
    trimChars]

/-- C2 amended: the aggregate scorer itself returns 0 on the empty set;
the "unavailable" sentinel lives one layer up, in the badge renderer,
which displays `"--"` for an empty set without consulting the scorer, and
`"--"` differs from the rendering of every score. -/
theorem dq_badge_unavailable :
    dqBadgeText [] = "--" ∧ computeDataQualityScore [] = 0 ∧
    ∀ rs : List Record, rs ≠ [] → dqBadgeText rs ≠ "--" := by
  refine ⟨rfl, rfl, ?_⟩
  intro rs h
  have hlen : rs.length ≠ 0 := by simpa [List.length_eq_zero] using h
  have hrange : 0 ≤ computeDataQualityScore rs ∧ computeDataQualityScore rs ≤ 100 := by
    simp only [computeDataQualityScore, hlen, if_neg]
    exact ⟨le_max_left _ _, max_le (by norm_num) (min_le_left _ _)⟩
  simpa [dqBadgeText, hlen] using
    repr_score_ne_sentinel _ hrange.1 hrange.2

/-- Witness for `dq_badge_unavailable` at the singleton all-missing set. -/
theorem dq_badge_unavailable_witness : dqBadgeText [allMissingRec] ≠ "--" :=
  dq_badge_unavailable.2.2 [allMissingRec] (by simp)

/-- C3 counterexample: on a record missing only `vfc_status` the three
call sites return three different tiers ("high", "CLEAN", "medium"), so no
single policy is applied consistently even up to case. -/
theorem severity_callsites_counterexample :
    getSeverity recNoVfc = "high" ∧ getRecordSeverity recNoVfc = "CLEAN" ∧
    riskClassFromRecord recNoVfc = "medium" ∧
    lowerChars (getRecordSeverity recNoVfc) ≠ getSeverity recNoVfc ∧
    riskClassFromRecord recNoVfc ≠ getSeverity recNoVfc := by decide

/-- C3 amended: the call sites implement different policies.
`getRecordSeverity` agrees with `getSeverity` up to case exactly on the
records where `vfc_status` and `funding_source` are both missing or both
present (the two classifiers use AND resp. OR there), and
`riskClassFromRecord` follows the alternate vaccine/order-field policy:
a record missing only `ndc` highlights "high" yet classifies "clean". -/
theorem severity_policy_divergence :
    (∀ r : Record, lowerChars (getRecordSeverity r) = getSeverity r ↔
      falsy r.vfc_status = falsy r.funding_source) ∧
    (∀ r : Record, falsy r.ndc = true → falsy r.vfc_status = false →
      falsy r.funding_source = false → falsy r.race = false →
      falsy r.ethnicity = false → falsy r.mobile = false →
      falsy r.email = false →
      riskClassFromRecord r = "high" ∧ getSeverity r = "clean") := by
  constructor
  · intro r
    cases hv : falsy r.vfc_status <;> cases hf : falsy r.funding_source <;>
      cases hr : falsy r.race <;> cases he : falsy r.ethnicity <;>
        cases hm : falsy r.mobile <;> cases hl : falsy r.email <;>
          simp [getSeverity, getRecordSeverity, lowerChars, hv, hf, hr, he,
            hm, hl]
  · intro r h1 h2 h3 h4 h5 h6 h7
    constructor
    · simp [riskClassFromRecord, isEmpty_of_falsy h1]
    · simp [getSeverity, h2, h3, h4, h5, h6, h7]

/-- Witness for `severity_policy_divergence` at the record missing only
`ndc`. -/
theorem severity_policy_divergence_witness :
    riskClassFromRecord recNoNdc = "high" ∧ getSeverity recNoNdc = "clean" :=
  severity_policy_divergence.2 recNoNdc (by decide) (by decide) (by decide)
    (by decide) (by decide) (by decide) (by decide)

/-- C4 counterexample: a record missing none of the seven weighted fields
but carrying a date conflict scores 85, not 100. -/
theorem readiness_no_missing_counterexample :
    (∀ w ∈ READINESS_WEIGHTS, falsy (fieldGet recConflict w.1) = false) ∧
    computeReadiness recConflict = 85 ∧ computeReadiness recConflict ≠ 100 := by
  decide

/-- C4 amended: `computeReadiness` equals the claimed clamped formula, its
value is always in [0, 100], a record missing all seven weighted fields
(hence conflict-free) scores 0, and a record missing none scores 100
provided it has no date conflict. -/
theorem computeReadiness_formula :
    (∀ r : Record, computeReadiness r = readinessSpec r) ∧
    (∀ r : Record, 0 ≤ computeReadiness r ∧ computeReadiness r ≤ 100) ∧
    (∀ r : Record, (∀ w ∈ READINESS_WEIGHTS, falsy (fieldGet r w.1) = true) →
      computeReadiness r = 0) ∧
    (∀ r : Record, (∀ w ∈ READINESS_WEIGHTS, falsy (fieldGet r w.1) = false) →
      dateConflict r = false → computeReadiness r = 100) := by
  have clamp_penalty : ∀ (c : Bool) (D : Int),
      max 0 (min 100 (if c = true then max 0 (100 - D - 15) else 100 - D)) =
      max 0 (min 100 (100 - D - (if c = true then 15 else 0))) := by
    intro c D
    cases c with
    | false => simp
    | true => simp only [if_pos]; omega
  refine ⟨?_, ?_, ?_, ?_⟩
  · intro r
    simp only [computeReadiness, readinessSpec, readiness_fold]
    exact clamp_penalty (dateConflict r) _
  · intro r
    simp only [computeReadiness]
    exact ⟨le_max_left _ _, max_le (by norm_num) (min_le_left _ _)⟩
  · intro r h
    have h1 := h ("lot_number", 25) (by simp [READINESS_WEIGHTS])
    have h2 := h ("ndc", 25) (by simp [READINESS_WEIGHTS])
    have h3 := h ("expiration_date", 10) (by simp [READINESS_WEIGHTS])
    have h4 := h ("vfc_status", 15) (by simp [READINESS_WEIGHTS])
    have h5 := h ("funding_source", 15) (by simp [READINESS_WEIGHTS])
    have h6 := h ("mobile", 5) (by simp [READINESS_WEIGHTS])
    have h7 := h ("email", 5) (by simp [READINESS_WEIGHTS])
    simp only [fieldGet_lot_number, fieldGet_ndc, fieldGet_expiration_date,
      fieldGet_vfc_status, fieldGet_funding_source, fieldGet_mobile,
      fieldGet_email] at h1 h2 h3 h4 h5 h6 h7
    have hc : dateConflict r = false := by simp [dateConflict, h3]
    simp [computeReadiness, readiness_fold, h1, h2, h3, h4, h5, h6, h7, hc]
  · intro r h hc
    have h1 := h ("lot_number", 25) (by simp [READINESS_WEIGHTS])
    have h2 := h ("ndc", 25) (by simp [READINESS_WEIGHTS])
    have h3 := h ("expiration_date", 10) (by simp [READINESS_WEIGHTS])
    have h4 := h ("vfc_status", 15) (by simp [READINESS_WEIGHTS])
    have h5 := h ("funding_source", 15) (by simp [READINESS_WEIGHTS])
    have h6 := h ("mobile", 5) (by simp [READINESS_WEIGHTS])
    have h7 := h ("email", 5) (by simp [READINESS_WEIGHTS])
    simp only [fieldGet_lot_number, fieldGet_ndc, fieldGet_expiration_date,
      fieldGet_vfc_status, fieldGet_funding_source, fieldGet_mobile,
      fieldGet_email] at h1 h2 h3 h4 h5 h6 h7
    simp [computeReadiness, readiness_fold, h1, h2, h3, h4, h5, h6, h7, hc]

/-- Witness for `computeReadiness_formula`: all-missing scores 0,
all-present with sane dates scores 100. -/
theorem computeReadiness_formula_witness :
    computeReadiness allMissingRec = 0 ∧ computeReadiness recAllFields = 100 :=
  ⟨computeReadiness_formula.2.2.1 allMissingRec (by decide),
   computeReadiness_formula.2.2.2 recAllFields (by decide) (by decide)⟩

/-- C5 counterexample: a whitespace-only field value is `isEmpty` but the
classifier and the scorer treat it as present: a whitespace-only
`vfc_status` classifies "clean" (the `isEmpty`-based variant says "high"),
and a whitespace-only `lot_number` scores 100 (the `isEmpty`-based variant
says 75). -/
theorem missingness_ws_counterexample :
    isEmpty recWsVfc.vfc_status = true ∧ getSeverity recWsVfc = "clean" ∧
    getSeverityE recWsVfc = "high" ∧
    isEmpty recWsLot.lot_number = true ∧ computeReadiness recWsLot = 100 ∧
    computeReadinessE recWsLot = 75 := by decide

/-- C5 amended: the classifier and scorer use JavaScript truthiness, which
implies `isEmpty` but differs from it on non-empty whitespace-only
strings; on every record without such values the two predicates coincide
and classification and scoring match their `isEmpty`-based variants. -/
theorem missingness_predicate_refinement :
    (∀ v : Option String, falsy v = true → isEmpty v = true) ∧
    (∀ r : Record,
      wsMismatch r.lot_number = false → wsMismatch r.ndc = false →
      wsMismatch r.expiration_date = false → wsMismatch r.vfc_status = false →
      wsMismatch r.funding_source = false → wsMismatch r.race = false →
      wsMismatch r.ethnicity = false → wsMismatch r.mobile = false →
      wsMismatch r.email = false → wsMismatch r.administered_date = false →
      getSeverity r = getSeverityE r ∧
      computeReadiness r = computeReadinessE r) := by
  refine ⟨fun v h => isEmpty_of_falsy h, ?_⟩
  intro r h1 h2 h3 h4 h5 h6 h7 h8 h9 h10
  have e1 := isEmpty_eq_falsy_of_not_ws h1
  have e2 := isEmpty_eq_falsy_of_not_ws h2
  have e3 := isEmpty_eq_falsy_of_not_ws h3
  have e4 := isEmpty_eq_falsy_of_not_ws h4
  have e5 := isEmpty_eq_falsy_of_not_ws h5
  have e6 := isEmpty_eq_falsy_of_not_ws h6
  have e7 := isEmpty_eq_falsy_of_not_ws h7
  have e8 := isEmpty_eq_falsy_of_not_ws h8
  have e9 := isEmpty_eq_falsy_of_not_ws h9
  have e10 := isEmpty_eq_falsy_of_not_ws h10
  constructor
  · simp [getSeverity, getSeverityE, e4, e5, e6, e7, e8, e9]
  · simp only [computeReadiness, computeReadinessE, dateConflict, dateConflictE,
      readiness_fold, readinessE_fold, e1, e2, e3, e4, e5, e8, e9, e10]

/-- Witness for `missingness_predicate_refinement` at the all-present
record. -/
theorem missingness_predicate_refinement_witness :
    getSeverity recAllFields = getSeverityE recAllFields ∧
    computeReadiness recAllFields = computeReadinessE recAllFields :=
  missingness_predicate_refinement.2 recAllFields (by decide) (by decide)
    (by decide) (by decide) (by decide) (by decide) (by decide) (by decide)
    (by decide) (by decide)

/-! ### Lot aggregation lemmas -/

lemma insDesc_head (g : LotGroup) (l : List LotGroup) :
    (insDesc g l).head? = some g ∨ (insDesc g l).head? = l.head? := by
  cases l with
  | nil => left; rfl
  | cons h t =>
    simp only [insDesc]
    by_cases hc : g.count > h.count
    · rw [if_pos hc]; left; rfl
    · rw [if_neg hc]; right; rfl

lemma chain'_insDesc (g : LotGroup) (l : List LotGroup)
    (h : List.Chain' (fun a b => b.count ≤ a.count) l) :
    List.Chain' (fun a b => b.count ≤ a.count) (insDesc g l) := by
  induction l with
  | nil => simp [insDesc]
  | cons hd tl ih =>
    simp only [insDesc]
    by_cases hc : g.count > hd.count
    · rw [if_pos hc]
      exact List.chain'_cons.mpr ⟨le_of_lt hc, h⟩
    · rw [if_neg hc]
      have htl : List.Chain' (fun a b => b.count ≤ a.count) tl := h.tail
      refine List.chain'_cons'.mpr ⟨?_, ih htl⟩
      intro b hb
      rcases insDesc_head g tl with hh | hh
      · rw [hh] at hb
        simp only [Option.mem_def, Option.some.injEq] at hb
        subst hb
        omega
      · rw [hh] at hb
        exact (List.chain'_cons'.mp h).1 b hb

lemma chain'_sortDesc (l : List LotGroup) :
    List.Chain' (fun a b => b.count ≤ a.count) (sortDesc l) := by
  induction l with
  | nil => simp [sortDesc]
  | cons h t ih => exact chain'_insDesc h _ ih

lemma lotRow_flag (st : LotState) (g : LotGroup) :
    (lotRow st g).flag =
      flagSpec (totalFor st g.vaccine) (dominantFor st g.vaccine) g.count g.lot := by
  simp only [lotRow, flagSpec, Bool.and_eq_true, Bool.or_eq_true,
    decide_eq_true_eq, ne_eq]
  split_ifs <;> first | rfl | tauto

lemma domFold_spec (lots : List (String × Nat)) :
    ∀ best : String × Int,
      (domFold lots best = best ∨
        ∃ p ∈ lots, domFold lots best = (p.1, (p.2 : Int))) ∧
      best.2 ≤ (domFold lots best).2 ∧
      ∀ p ∈ lots, (p.2 : Int) ≤ (domFold lots best).2 := by
  induction lots with
  | nil => intro best; exact ⟨Or.inl rfl, le_refl _, by simp⟩
  | cons q t ih =>
    intro best
    obtain ⟨l, c⟩ := q
    simp only [domFold]
    by_cases hc : (c : Int) > best.2
    · rw [if_pos hc]
      obtain ⟨hmem, hle, hall⟩ := ih (l, (c : Int))
      refine ⟨?_, le_trans (le_of_lt hc) hle, ?_⟩
      · rcases hmem with he | ⟨p, hp, he⟩
        · exact Or.inr ⟨(l, c), List.mem_cons_self _ _, he⟩
        · exact Or.inr ⟨p, List.mem_cons_of_mem _ hp, he⟩
      · intro p hp
        rcases List.mem_cons.mp hp with he | hp'
        · subst he; exact hle
        · exact hall p hp'
    · rw [if_neg hc]
      obtain ⟨hmem, hle, hall⟩ := ih best
      refine ⟨?_, hle, ?_⟩
      · rcases hmem with he | ⟨p, hp, he⟩
        · exact Or.inl he
        · exact Or.inr ⟨p, List.mem_cons_of_mem _ hp, he⟩
      · intro p hp
        rcases List.mem_cons.mp hp with he | hp'
        · subst he
          exact le_trans (by omega) hle
        · exact hall p hp'

lemma groupCount_updGroups (gs : List LotGroup) (v' l' d v l : String) :
    groupCount (updGroups gs v' l' d) v l =
      groupCount gs v l + (if v' = v ∧ l' = l then 1 else 0) := by
  induction gs with
  | nil =>
    by_cases h1 : v' = v <;> by_cases h2 : l' = l <;>
      simp [updGroups, groupCount, h1, h2]
  | cons g t ih =>
    simp only [updGroups]
    by_cases hg : g.vaccine = v' ∧ g.lot = l'
    · rw [if_pos (by simp [hg.1, hg.2])]
      by_cases hq : g.vaccine = v ∧ g.lot = l
      · have hi : v' = v ∧ l' = l := ⟨hg.1 ▸ hq.1, hg.2 ▸ hq.2⟩
        simp [groupCount, hq.1, hq.2, hi]
      · have hi : ¬(v' = v ∧ l' = l) := by
          intro hvl
          exact hq ⟨hg.1.trans hvl.1, hg.2.trans hvl.2⟩
        have hb : (decide (g.vaccine = v) && decide (g.lot = l)) = false := by
          rcases not_and_or.mp hq with h | h <;> simp [h]
        simp [groupCount, hb, hi]
    · rw [if_neg (by simpa using fun a b => hg ⟨a, b⟩)]
      by_cases hq : g.vaccine = v ∧ g.lot = l
      · have hi : ¬(v' = v ∧ l' = l) := by
          intro hvl
          exact hg ⟨hq.1.trans hvl.1.symm, hq.2.trans hvl.2.symm⟩
        simp [groupCount, hq.1, hq.2, hi]
      · have hb : (decide (g.vaccine = v) && decide (g.lot = l)) = false := by
          rcases not_and_or.mp hq with h | h <;> simp [h]
        simp [groupCount, hb, ih]

lemma totalCount_bumpAssoc (ts : List (String × Nat)) (v' v : String) :
    totalCount (bumpAssoc ts v') v =
      totalCount ts v + (if v' = v then 1 else 0) := by
  induction ts with
  | nil => by_cases h : v' = v <;> simp [bumpAssoc, totalCount, h]
  | cons p t ih =>
    obtain ⟨a, c⟩ := p
    simp only [bumpAssoc]
    by_cases ha : a = v'
    · rw [if_pos ha]
      by_cases hv : a = v
      · have : v' = v := ha ▸ hv
        simp [totalCount, hv, this]
      · have : ¬(v' = v) := fun he => hv (ha.trans he)
        simp [totalCount, hv, this]
    · rw [if_neg ha]
      by_cases hv : a = v
      · have : ¬(v' = v) := fun he => ha (hv.trans he.symm)
        simp [totalCount, hv, this]
      · simp [totalCount, hv, ih]

lemma lotsFor_bumpLotCounts (lc : List (String × List (String × Nat)))
    (v' l' v : String) :
    lotsFor (bumpLotCounts lc v' l') v =
      if v' = v then bumpAssoc (lotsFor lc v) l' else lotsFor lc v := by
  induction lc with
  | nil => by_cases h : v' = v <;> simp [bumpLotCounts, lotsFor, h]
  | cons p t ih =>
    obtain ⟨a, m⟩ := p
    simp only [bumpLotCounts]
    by_cases ha : a = v'
    · rw [if_pos ha]
      by_cases hv : a = v
      · have : v' = v := ha ▸ hv
        simp [lotsFor, hv, this]
      · have : ¬(v' = v) := fun he => hv (ha.trans he)
        simp [lotsFor, hv, this]
    · rw [if_neg ha]
      by_cases hv : a = v
      · have : ¬(v' = v) := fun he => ha (hv.trans he.symm)
        simp [lotsFor, hv, this]
      · simp [lotsFor, hv, ih]

lemma keys_bumpAssoc (m : List (String × Nat)) (k : String) :
    (bumpAssoc m k).map Prod.fst =
      if k ∈ m.map Prod.fst then m.map Prod.fst else m.map Prod.fst ++ [k] := by
  induction m with
  | nil => simp [bumpAssoc]
  | cons p t ih =>
    obtain ⟨a, c⟩ := p
    simp only [bumpAssoc]
    by_cases ha : a = k
    · rw [if_pos ha]
      simp [ha]
    · rw [if_neg ha]
      have hak : ¬(k = a) := fun he => ha he.symm
      by_cases hk : k ∈ t.map Prod.fst <;> simp [ih, hk, hak]

lemma nodup_keys_bumpAssoc (m : List (String × Nat)) (k : String)
    (h : (m.map Prod.fst).Nodup) : ((bumpAssoc m k).map Prod.fst).Nodup := by
  rw [keys_bumpAssoc]
  split_ifs with hmem
  · exact h
  · simp [List.nodup_append, h, hmem]

lemma totalCount_eq_of_mem (m : List (String × Nat))
    (h : (m.map Prod.fst).Nodup) (p : String × Nat) (hp : p ∈ m) :
    totalCount m p.1 = p.2 := by
  induction m with
  | nil => cases hp
  | cons q t ih =>
    obtain ⟨a, c⟩ := q
    rcases List.mem_cons.mp hp with he | hp'
    · subst he; simp [totalCount]
    · have ha : ¬(a = p.1) := by
        intro he
        have : p.1 ∈ t.map Prod.fst := List.mem_map_of_mem Prod.fst hp'
        rw [he] at h
        exact (List.nodup_cons.mp (by simpa using h)).1 this
      simp only [totalCount, if_neg ha]
      exact ih (List.nodup_cons.mp (by simpa using h)).2 hp'

lemma lotAgg_groupCount (rs : List Record) (st : LotState) (v l : String) :
    groupCount (rs.foldl lotStep st).groups v l =
      groupCount st.groups v l + rs.countP (keptWith v l) := by
  induction rs generalizing st with
  | nil => simp
  | cons r t ih =>
    rw [List.foldl_cons, ih, List.countP_cons]
    by_cases hk : lotKept r = true
    · have hcond : (falsy r.vaccine_name || falsy r.lot_number ||
          falsy r.administered_date) = false := by
        simpa [lotKept] using hk
      simp only [lotStep, hcond, Bool.false_eq_true, if_false,
        groupCount_updGroups]
      by_cases h1 : trimChars (r.vaccine_name.getD "") = v <;>
        by_cases h2 : trimChars (r.lot_number.getD "") = l <;>
          simp [keptWith, hk, h1, h2] <;> omega
    · have hcond : (falsy r.vaccine_name || falsy r.lot_number ||
          falsy r.administered_date) = true := by
        cases hx : (falsy r.vaccine_name || falsy r.lot_number ||
            falsy r.administered_date) with
        | false => exact absurd (show lotKept r = true by simp [lotKept, hx]) hk
        | true => rfl
      simp [lotStep, hcond, keptWith, lotKept, hcond]

lemma lotAgg_totalCount (rs : List Record) (st : LotState) (v : String) :
    totalCount (rs.foldl lotStep st).totals v =
      totalCount st.totals v + rs.countP (keptVac v) := by
  induction rs generalizing st with
  | nil => simp
  | cons r t ih =>
    rw [List.foldl_cons, ih, List.countP_cons]
    by_cases hk : lotKept r = true
    · have hcond : (falsy r.vaccine_name || falsy r.lot_number ||
          falsy r.administered_date) = false := by
        simpa [lotKept] using hk
      simp only [lotStep, hcond, Bool.false_eq_true, if_false,
        totalCount_bumpAssoc]
      by_cases h1 : trimChars (r.vaccine_name.getD "") = v <;>
        simp [keptVac, hk, h1] <;> omega
    · have hcond : (falsy r.vaccine_name || falsy r.lot_number ||
          falsy r.administered_date) = true := by
        cases hx : (falsy r.vaccine_name || falsy r.lot_number ||
            falsy r.administered_date) with
        | false => exact absurd (show lotKept r = true by simp [lotKept, hx]) hk
        | true => rfl
      simp [lotStep, hcond, keptVac, lotKept, hcond]

lemma lotAgg_vlCount (rs : List Record) (st : LotState) (v l : String) :
    totalCount (lotsFor (rs.foldl lotStep st).lotCounts v) l =
      totalCount (lotsFor st.lotCounts v) l + rs.countP (keptWith v l) := by
  induction rs generalizing st with
  | nil => simp
  | cons r t ih =>
    rw [List.foldl_cons, ih, List.countP_cons]
    by_cases hk : lotKept r = true
    · have hcond : (falsy r.vaccine_name || falsy r.lot_number ||
          falsy r.administered_date) = false := by
        simpa [lotKept] using hk
      simp only [lotStep, hcond, Bool.false_eq_true, if_false,
        lotsFor_bumpLotCounts]
      by_cases h1 : trimChars (r.vaccine_name.getD "") = v <;>
        by_cases h2 : trimChars (r.lot_number.getD "") = l <;>
          simp [keptWith, hk, h1, h2, totalCount_bumpAssoc] <;> omega
    · have hcond : (falsy r.vaccine_name || falsy r.lot_number ||
          falsy r.administered_date) = true := by
        cases hx : (falsy r.vaccine_name || falsy r.lot_number ||
            falsy r.administered_date) with
        | false => exact absurd (show lotKept r = true by simp [lotKept, hx]) hk
        | true => rfl
      simp [lotStep, hcond, keptWith, lotKept, hcond]

lemma lotAgg_inner_nodup (rs : List Record) (st : LotState)
    (h : ∀ v, ((lotsFor st.lotCounts v).map Prod.fst).Nodup) :
    ∀ v, ((lotsFor (rs.foldl lotStep st).lotCounts v).map Prod.fst).Nodup := by
  induction rs generalizing st with
  | nil => exact h
  | cons r t ih =>
    rw [List.foldl_cons]
    apply ih
    intro v
    simp only [lotStep]
    split_ifs with hcond
    · exact h v
    · simp only [lotsFor_bumpLotCounts]
      split_ifs with hv
      · exact nodup_keys_bumpAssoc _ _ (h v)
      · exact h v

/-- C6: the lot table groups kept records by trimmed
`(vaccine_name, lot_number)` (each group's count is the number of matching
records, and the per-vaccine totals behind the 2% share test count all
kept records of the vaccine), sorts rows by descending count, and flags
each row with at most one anomaly, by the precedence typo > oneOff > rare
with the claimed conditions; the dominant lot entry is a maximal-count
entry of the vaccine's lot counts, and those counts are the true record
counts. -/
theorem lot_table_aggregation (records : List Record) :
    List.Chain' (fun a b => b.count ≤ a.count)
      (buildVaccineLotTableRows records) ∧
    (∀ row ∈ buildVaccineLotTableRows records,
      row.flag = flagSpec (totalFor (lotAgg records) row.vaccine)
        (dominantFor (lotAgg records) row.vaccine) row.count row.lot) ∧
    (∀ v l, groupCount (lotAgg records).groups v l =
      records.countP (keptWith v l)) ∧
    (∀ v, totalCount (lotAgg records).totals v =
      records.countP (keptVac v)) ∧
    (∀ v, lotsFor (lotAgg records).lotCounts v ≠ [] →
      (∃ p ∈ lotsFor (lotAgg records).lotCounts v,
        dominantFor (lotAgg records) v = (p.1, (p.2 : Int)) ∧
        ∀ q ∈ lotsFor (lotAgg records).lotCounts v, q.2 ≤ p.2) ∧
      (∀ p ∈ lotsFor (lotAgg records).lotCounts v,
        p.2 = records.countP (keptWith v p.1))) := by
  refine ⟨?_, ?_, ?_, ?_, ?_⟩
  · simp only [buildVaccineLotTableRows]
    rw [List.chain'_map]
    exact chain'_sortDesc _
  · intro row hrow
    simp only [buildVaccineLotTableRows] at hrow
    obtain ⟨g, hg, rfl⟩ := List.mem_map.mp hrow
    exact lotRow_flag _ _
  · intro v l
    simpa [lotAgg, groupCount] using
      lotAgg_groupCount records ⟨[], [], []⟩ v l
  · intro v
    simpa [lotAgg, totalCount] using
      lotAgg_totalCount records ⟨[], [], []⟩ v
  · intro v hne
    have hnd := lotAgg_inner_nodup records ⟨[], [], []⟩
      (by intro v; simp [lotsFor]) v
    obtain ⟨hmem, -, hall⟩ :=
      domFold_spec (lotsFor (lotAgg records).lotCounts v) ("", -1)
    have hdom : dominantFor (lotAgg records) v =
        domFold (lotsFor (lotAgg records).lotCounts v) ("", -1) := by
      cases hl : lotsFor (lotAgg records).lotCounts v with
      | nil => exact absurd hl hne
      | cons q t => simp [dominantFor, hl]
    constructor
    · rcases hmem with he | ⟨p, hp, he⟩
      · cases hl : lotsFor (lotAgg records).lotCounts v with
        | nil => exact absurd hl hne
        | cons q t =>
          have hq := hall q (by rw [hl]; exact List.mem_cons_self _ _)
          rw [he] at hq
          exact absurd hq (by simp; omega)
      · refine ⟨p, hp, by rw [hdom, he], ?_⟩
        intro q hq
        have hle := hall q hq
        rw [he] at hle
        simp only at hle
        exact_mod_cast hle
    · intro p hp
      have heq := totalCount_eq_of_mem _ (by simpa [lotAgg] using hnd) p hp
      have hv := lotAgg_vlCount records ⟨[], [], []⟩ v p.1
      simp only [lotsFor, totalCount, Nat.zero_add] at hv
      rw [← heq]
      simpa [lotAgg] using hv

/-- Witness for `lot_table_aggregation` at a one-record set: the dominant
lot of vaccine `V` is one of its lot entries and maximal. -/
theorem lot_table_aggregation_witness :
    ∃ p ∈ lotsFor (lotAgg [recLotX]).lotCounts "V",
      dominantFor (lotAgg [recLotX]) "V" = (p.1, (p.2 : Int)) ∧
      ∀ q ∈ lotsFor (lotAgg [recLotX]).lotCounts "V", q.2 ≤ p.2 :=
  ((lot_table_aggregation [recLotX]).2.2.2.2 "V" (by decide)).1

/-! ### Near-typo lemmas -/

lemma skipLoop_one (l : List Char) :
    ∀ s : List Char, l.length = s.length → (skipLoop l s 1 = true ↔ l = s) := by
  induction l with
  | nil =>
    intro s h
    cases s with
    | nil => simp [skipLoop]
    | cons b bs => simp at h
  | cons a as ih =>
    intro s h
    cases s with
    | nil => simp at h
    | cons b bs =>
      have hlen : as.length = bs.length := by simpa using h
      by_cases hab : a = b
      · subst hab
        simp [skipLoop, ih bs hlen]
      · simp [skipLoop, hab]

lemma skipLoop_zero (s : List Char) :
    ∀ l : List Char, l.length = s.length + 1 →
      (skipLoop l s 0 = true ↔ ∃ i, l.eraseIdx i = s) := by
  induction s with
  | nil =>
    intro l h
    cases l with
    | nil => simp at h
    | cons x xs =>
      have hx : xs = [] := List.length_eq_zero.mp (by simpa using h)
      subst hx
      simp only [skipLoop, true_iff]
      exact ⟨0, rfl⟩
  | cons b bs ih =>
    intro l h
    cases l with
    | nil => simp at h
    | cons a as =>
      have hlen : as.length = bs.length + 1 := by simpa using h
      by_cases hab : a = b
      · subst hab
        rw [show skipLoop (a :: as) (a :: bs) 0 = skipLoop as bs 0 from by
          simp [skipLoop]]
        rw [ih as hlen]
        constructor
        · rintro ⟨i, hi⟩
          exact ⟨i + 1, by simp [List.eraseIdx, hi]⟩
        · rintro ⟨i, hi⟩
          cases i with
          | zero =>
            simp only [List.eraseIdx] at hi
            exact ⟨0, by simp [List.eraseIdx, hi]⟩
          | succ i =>
            simp only [List.eraseIdx, List.cons.injEq, true_and] at hi
            exact ⟨i, hi⟩
      · rw [show skipLoop (a :: as) (b :: bs) 0 = skipLoop as (b :: bs) 1 from by
          simp [skipLoop, hab]]
        rw [skipLoop_one as (b :: bs) (by simpa using hlen)]
        constructor
        · intro he
          exact ⟨0, by simp [List.eraseIdx, he]⟩
        · rintro ⟨i, hi⟩
          cases i with
          | zero => simpa [List.eraseIdx] using hi
          | succ i =>
            simp only [List.eraseIdx, List.cons.injEq] at hi
            exact absurd hi.1 hab

lemma eraseIdx_of_le (l : List Char) :
    ∀ i : Nat, l.length ≤ i → l.eraseIdx i = l := by
  induction l with
  | nil => intro i _; cases i <;> rfl
  | cons a as ih =>
    intro i h
    cases i with
    | zero => simp at h
    | succ i => simp [List.eraseIdx, ih i (by simpa using h)]

lemma oneDel_iff (l s : List Char) (h : s.length < l.length) :
    oneDel l s = true ↔ ∃ i, l.eraseIdx i = s := by
  simp only [oneDel, List.any_eq_true, List.mem_range, decide_eq_true_eq]
  constructor
  · rintro ⟨i, -, hi⟩; exact ⟨i, hi⟩
  · rintro ⟨i, hi⟩
    refine ⟨i, ?_, hi⟩
    by_contra hge
    push_neg at hge
    rw [eraseIdx_of_le l i hge] at hi
    subst hi
    exact lt_irrefl _ h

/-- C7 counterexample: the claimed per-character `0`/`O` equivalence does
not hold in the code: with normalized lots `X0A` and `XOB` (one substituted
character under the equivalence) the claimed check accepts, but
`isNearTypo` rejects, because the code applies the `0`/`O` softening only
as a whole-string equality shortcut and counts `0` vs `O` as an ordinary
mismatch in its one-edit scan. -/
theorem nearTypo_equivalence_counterexample :
    nearTypoClaim "X0A" "XOB" = true ∧ isNearTypo "X0A" "XOB" = false := by
  decide

/-- C7 amended: `isNearTypo` accepts exactly the pairs whose normalized
forms are non-empty, unequal, and either equal after replacing `0` by `O`,
or of equal length with exactly one mismatched (raw) character, or of
lengths differing by one with a single deletion of the longer aligning
them; the `ABC123`/`ABD123` set is flagged typo and a lone `XYZ` one-off. -/
theorem isNearTypo_characterization :
    (∀ a b : String, isNearTypo a b = true ↔
      (normLot a ≠ "" ∧ normLot b ≠ "" ∧ normLot a ≠ normLot b ∧
        (soften (normLot a) = soften (normLot b) ∨
         ((normLot a).length = (normLot b).length ∧
          mismatches (normLot a).data (normLot b).data = 1) ∨
         ((normLot a).length = (normLot b).length + 1 ∧
          ∃ i, (normLot a).data.eraseIdx i = (normLot b).data) ∨
         ((normLot b).length = (normLot a).length + 1 ∧
          ∃ i, (normLot b).data.eraseIdx i = (normLot a).data)))) ∧
    (buildVaccineLotTableRows (List.replicate 50 recLotA ++ [recLotB])).map
        (fun row => (row.lot, row.flag)) =
      [("ABC123", none), ("ABD123", some LotFlag.typo)] ∧
    (buildVaccineLotTableRows [recLotX]).map (fun row => (row.lot, row.flag)) =
      [("XYZ", some LotFlag.oneOff)] := by
  refine ⟨?_, by decide, by decide⟩
  intro a b
  by_cases h1 : normLot a = ""
  · simp [isNearTypo, h1]
  by_cases h2 : normLot b = ""
  · simp [isNearTypo, h1, h2]
  by_cases h3 : normLot a = normLot b
  · simp [isNearTypo, h1, h2, h3]
  by_cases h4 : soften (normLot a) = soften (normLot b)
  · simp [isNearTypo, h1, h2, h3, h4]
  by_cases h5 : (normLot a).length = (normLot b).length
  · have h6 : ¬((normLot a).length = (normLot b).length + 1) := by omega
    have h7 : ¬((normLot b).length = (normLot a).length + 1) := by omega
    simp [isNearTypo, h1, h2, h3, h4, h5, h6, h7]
  by_cases h6 : (normLot a).length = (normLot b).length + 1
  · have h7 : ¬((normLot b).length = (normLot a).length + 1) := by omega
    have hdata : (normLot a).data.length = (normLot b).data.length + 1 := h6
    have hiff := skipLoop_zero (normLot b).data (normLot a).data hdata
    have hx1 : ¬((normLot b).length + 1 = (normLot b).length) := by omega
    have hx2 : ¬((normLot b).length = (normLot b).length + 1 + 1) := by omega
    have hx3 : (normLot b).length + 1 > (normLot b).length := by omega
    simp [isNearTypo, h1, h2, h3, h4, h5, h6, h7, hiff, hx1, hx2, hx3]
  by_cases h7 : (normLot b).length = (normLot a).length + 1
  · have hdata : (normLot b).data.length = (normLot a).data.length + 1 := h7
    have hiff := skipLoop_zero (normLot a).data (normLot b).data hdata
    have hx1 : ¬((normLot a).length = (normLot a).length + 1) := by omega
    have hx2 : ¬((normLot a).length = (normLot a).length + 1 + 1) := by omega
    have hx3 : ¬((normLot a).length > (normLot a).length + 1) := by omega
    simp [isNearTypo, h1, h2, h3, h4, h5, h6, h7, hiff, hx1, hx2, hx3]
  · simp [isNearTypo, h1, h2, h3, h4, h5, h6, h7]

/-! ### Date-bucketing lemmas -/

lemma addCounts_zero_right (c : DayCounts) : addCounts c ⟨0, 0, 0, 0, 0⟩ = c := by
  cases c; simp [addCounts]

lemma addCounts_zero_left (c : DayCounts) : addCounts ⟨0, 0, 0, 0, 0⟩ c = c := by
  cases c; simp [addCounts]

lemma bucketCounts_updateBucket (m : List (String × DayCounts)) (d' : String)
    (r : Record) (d : String) :
    bucketCounts (updateBucket m d' r) d =
      if d' = d then bumpCounts (bucketCounts m d) r else bucketCounts m d := by
  induction m with
  | nil => by_cases h : d' = d <;> simp [updateBucket, bucketCounts, zeroCounts, h]
  | cons p t ih =>
    obtain ⟨k, c⟩ := p
    simp only [updateBucket]
    by_cases hk : k = d'
    · rw [if_pos hk]
      by_cases hd : k = d
      · have : d' = d := hk ▸ hd
        simp [bucketCounts, hd, this]
      · have : ¬(d' = d) := fun he => hd (hk.trans he)
        simp [bucketCounts, hd, this]
    · rw [if_neg hk]
      by_cases hd : k = d
      · have : ¬(d' = d) := fun he => hk (hd.trans he.symm)
        simp [bucketCounts, hd, this]
      · simp [bucketCounts, hd, ih]

lemma bucket_foldl (rs : List Record) (m : List (String × DayCounts)) (d : String) :
    bucketCounts (rs.foldl bucketStep m) d =
      addCounts (bucketCounts m d)
        ⟨rs.countP (fun r => dateKey r == some d && falsy r.vfc_status),
         rs.countP (fun r => dateKey r == some d && falsy r.funding_source),
         rs.countP (fun r => dateKey r == some d && falsy r.race),
         rs.countP (fun r => dateKey r == some d && falsy r.ethnicity),
         rs.countP (fun r => dateKey r == some d &&
           (falsy r.email || falsy r.mobile))⟩ := by
  induction rs generalizing m with
  | nil => simp [addCounts_zero_right]
  | cons r t ih =>
    rw [List.foldl_cons, ih]
    cases hd : dateKey r with
    | none =>
      simp only [bucketStep, hd, List.countP_cons]
      simp [hd]
    | some d0 =>
      simp only [bucketStep, hd, bucketCounts_updateBucket, List.countP_cons]
      by_cases hdd : d0 = d
      · rw [if_pos hdd]
        have hbeq : ((some d0 == some d) : Bool) = true := by simp [hdd]
        simp only [hbeq, Bool.true_and]
        simp only [addCounts, bumpCounts, DayCounts.mk.injEq]
        refine ⟨?_, ?_, ?_, ?_, ?_⟩ <;> omega
      · have hbeq : ((some d0 == some d) : Bool) = false := by
          simp [hdd]
        simp [hdd, hd, hbeq]

/-- C8 counterexample: the bucketing performs no date parsing: a record
whose administered date is the non-date string `"notadate"` still lands in
a bucket (named `"notadate"`), although the claim says a record with an
unparseable date contributes to no bucket. -/
theorem bucket_unparseable_counterexample :
    parseableDate "notadate" = false ∧
    recBadDate.administered_date = some "notadate" ∧
    bucketMissingByDate [recBadDate] = [("notadate", ⟨0, 0, 0, 0, 1⟩)] := by
  decide

/-- C8 amended: the bucketing groups records by the prefix of
`administered_date` before any `'T'`; each bucket's counters count, per
category, the records of that date with the field falsy, contact once per
record when email or mobile is falsy; a record whose date key is falsy
(absent or empty prefix) contributes to no bucket — but no parseability
check is made, so any other string forms a bucket of its own; the two
example dates share the bucket `2024-01-05`. -/
theorem bucket_missing_by_date_spec :
    (∀ (records : List Record) (d : String),
      bucketCounts (bucketMissingByDate records) d =
        ⟨records.countP (fun r => dateKey r == some d && falsy r.vfc_status),
         records.countP (fun r => dateKey r == some d && falsy r.funding_source),
         records.countP (fun r => dateKey r == some d && falsy r.race),
         records.countP (fun r => dateKey r == some d && falsy r.ethnicity),
         records.countP (fun r => dateKey r == some d &&
           (falsy r.email || falsy r.mobile))⟩) ∧
    (∀ (rs1 rs2 : List Record) (r : Record), dateKey r = none →
      bucketMissingByDate (rs1 ++ r :: rs2) = bucketMissingByDate (rs1 ++ rs2)) ∧
    dateKey recDateTime = some "2024-01-05" ∧
    dateKey recDateOnly = some "2024-01-05" := by
  refine ⟨?_, ?_, by decide, by decide⟩
  · intro records d
    have h := bucket_foldl records [] d
    simpa [bucketMissingByDate, bucketCounts, addCounts_zero_left,
      zeroCounts] using h
  · intro rs1 rs2 r h
    have hstep : ∀ m, bucketStep m r = m := fun m => by simp [bucketStep, h]
    simp [bucketMissingByDate, List.foldl_append, hstep]

/-- Witness for `bucket_missing_by_date_spec`: a record with no
administered date does not change the buckets. -/
theorem bucket_missing_by_date_witness :
    bucketMissingByDate [recDateOnly, allMissingRec] =
      bucketMissingByDate [recDateOnly] :=
  bucket_missing_by_date_spec.2.1 [recDateOnly] [] allMissingRec (by decide)

/-- C9: the review ledger is idempotent and timestamp-consistent: setting
reviewed records the call's timestamp and the flag, setting twice leaves
exactly the second call's state, and un-setting clears flag and
timestamp. -/
theorem reviewLedger_idempotent :
    ∀ (s : Store) (id t t1 t2 : String),
      isReviewed (setReviewed s id true t) id = true ∧
      getReviewedTimestamp (setReviewed s id true t) id = some t ∧
      setReviewed (setReviewed s id true t1) id true t2 = setReviewed s id true t2 ∧
      isReviewed (setReviewed s id false t) id = false ∧
      getReviewedTimestamp (setReviewed s id false t) id = none := by
  intro s id t t1 t2
  have hne : reviewedKey id ≠ reviewedTsKey id := by
    intro h
    have hl := congrArg String.length h
    have h3 : (":ts" : String).length = 3 := rfl
    simp only [reviewedKey, reviewedTsKey, String.length_append, h3] at hl
    omega
  refine ⟨?_, ?_, ?_, ?_, ?_⟩
  · simp [isReviewed, setReviewed, lsSet, hne]
  · simp [getReviewedTimestamp, setReviewed, lsSet]
  · funext k'
    simp only [setReviewed, lsSet, if_true]
    by_cases h1 : k' = reviewedTsKey id <;> by_cases h2 : k' = reviewedKey id <;>
      simp [h1, h2]
  · simp [isReviewed, setReviewed, lsSet, lsRemove, hne]
  · simp [getReviewedTimestamp, setReviewed, lsRemove]

/-- C10: a record with an absent vaccine name, lot number or administered
date contributes nothing to the lot aggregation: dropping it leaves the
whole aggregation state and the rendered table unchanged. -/
theorem lot_ignores_invalid :
    ∀ (rs1 rs2 : List Record) (r : Record),
      r.vaccine_name = none ∨ r.lot_number = none ∨ r.administered_date = none →
      lotAgg (rs1 ++ r :: rs2) = lotAgg (rs1 ++ rs2) ∧
      buildVaccineLotTableRows (rs1 ++ r :: rs2) =
        buildVaccineLotTableRows (rs1 ++ rs2) := by
  intro rs1 rs2 r h
  have hstep : ∀ st, lotStep st r = st := by
    intro st
    rcases h with h | h | h <;> simp [lotStep, falsy, h]
  have hagg : lotAgg (rs1 ++ r :: rs2) = lotAgg (rs1 ++ rs2) := by
    simp [lotAgg, List.foldl_append, hstep]
  exact ⟨hagg, by simp [buildVaccineLotTableRows, hagg]⟩

/-- Witness for `lot_ignores_invalid`: an all-missing record in the middle
of a set does not change the rendered lot table. -/
theorem lot_ignores_invalid_witness :
    buildVaccineLotTableRows [recLotA, allMissingRec, recLotX] =
      buildVaccineLotTableRows [recLotA, recLotX] :=
  (lot_ignores_invalid [recLotA] [recLotX] allMissingRec (Or.inl rfl)).2

end AuditUI
